import Mathlib

/-!
Verification development for the economical-roar repository.

Shallow embedding of:
  - src/ecoroar/metric/auroc.py          (AUROC metric wrapper)
  - src/ecoroar/model/simple_test_model.py (SimpleTestModel toy model)
  - src/ecoroar/dataset/cola.py, mrpc.py (dataset split descriptors)
  - src/export/faithfulness_plot.py and
    src/export/unmasked_performance_plot.py (JSON loading, dataframe
    explode, CLI argument specification, plot-stage skip logic)

Tensors are modelled as (nested) lists of rationals; fallible operations
return Except; the external libraries the scripts call (Python json,
pandas explode, keras AUC, tfds percent slicing) are modelled at the
level of their documented behaviour where the repository relies on it.
-/

namespace Ecoroar

/-! ### src/ecoroar/metric/auroc.py

`AUROC.update_state` runs `tf.ensure_shape(y_pred, [None, 2])`, then takes
the column `y_pred[:, 1]` and delegates to `keras.metrics.AUC.update_state`.
The superclass accumulator is an arbitrary parameter `aucUpdate`: the
wrapper's code never inspects it. `tf.ensure_shape` raises (before the
superclass is called) unless the tensor has rank 2 with second dimension 2.
-/

/-- Shape check of `tf.ensure_shape(y_pred, [None, 2])` on a rank-2 tensor:
every row must have length 2. -/
def ensureShapeN2 (y_pred : List (List ℚ)) : Except String (List (List ℚ)) :=
  if y_pred.all (fun row => row.length = 2) then .ok y_pred else .error "shape mismatch"

/-- The slice `y_pred[:, 1]`: element 1 of every row. -/
def positiveColumn (y_pred : List (List ℚ)) : List ℚ :=
  y_pred.map (fun row => row.getD 1 0)

/-- `AUROC.update_state` from src/ecoroar/metric/auroc.py.
`aucUpdate` is the inherited `keras.metrics.AUC.update_state`, taking the
accumulated state, `y_true`, the rank-1 predictions and the optional
`sample_weight`, and returning the new state. -/
def AUROC.updateState {State : Type} (aucUpdate : State → List ℚ → List ℚ → Option (List ℚ) → State)
    (st : State) (y_true : List ℚ) (y_pred : List (List ℚ)) (sample_weight : Option (List ℚ)) :
    Except String State :=
  match ensureShapeN2 y_pred with
  | .error e => .error e
  | .ok yp => .ok (aucUpdate st y_true (positiveColumn yp) sample_weight)

end Ecoroar

namespace Ecoroar

/-- C1: for every label tensor, every prediction tensor of shape [N, 2] and
every optional sample weight, the AUROC wrapper accumulates exactly what the
underlying keras AUC accumulator produces on the positive-class column
`y_pred[:, 1]`, whatever that accumulator is; hence the wrapper's AUC value
equals the AUC computed on the positive-class column. -/
theorem auroc_delegates_to_positive_column {State : Type}
    (aucUpdate : State → List ℚ → List ℚ → Option (List ℚ) → State)
    (st : State) (y_true : List ℚ) (y_pred : List (List ℚ)) (sample_weight : Option (List ℚ))
    (h : y_pred.all (fun row => row.length = 2) = true) :
    AUROC.updateState aucUpdate st y_true y_pred sample_weight
      = .ok (aucUpdate st y_true (y_pred.map (fun row => row.getD 1 0)) sample_weight) := by
  simp [AUROC.updateState, ensureShapeN2, h, positiveColumn]

/-- Witness for C1 at a concrete input: state is the list of already seen
predictions, the accumulator appends. -/
theorem auroc_delegates_to_positive_column_witness :
    ([[(1 : ℚ), 2], [3, 4]] : List (List ℚ)).all (fun row => row.length = 2) = true
    ∧ AUROC.updateState (fun (st : List ℚ) _ yp _ => st ++ yp) [] [0, 1] [[1, 2], [3, 4]] none
        = .ok ([[(1 : ℚ), 2], [3, 4]].map (fun row => row.getD 1 0)) := by
  refine ⟨by decide, ?_⟩
  exact auroc_delegates_to_positive_column (fun st _ yp _ => st ++ yp) [] [0, 1] [[1, 2], [3, 4]] none (by decide)

/-- C9: AUROC.update_state accumulates if and only if `y_pred` has shape
[N, 2]; on any other shape the `tf.ensure_shape` check raises before the
superclass accumulator runs, so no new state is ever produced and the
metric's accumulated state is left unchanged. -/
theorem auroc_shape_guard {State : Type}
    (aucUpdate : State → List ℚ → List ℚ → Option (List ℚ) → State)
    (st : State) (y_true : List ℚ) (y_pred : List (List ℚ)) (sample_weight : Option (List ℚ)) :
    ((∃ st', AUROC.updateState aucUpdate st y_true y_pred sample_weight = .ok st')
        ↔ y_pred.all (fun row => row.length = 2) = true)
    ∧ (y_pred.all (fun row => row.length = 2) = false
        → AUROC.updateState aucUpdate st y_true y_pred sample_weight = .error "shape mismatch") := by
  constructor
  · constructor
    · rintro ⟨st', hst⟩
      by_contra hsh
      simp [AUROC.updateState, ensureShapeN2, hsh] at hst
    · intro hsh
      refine ⟨aucUpdate st y_true (positiveColumn y_pred) sample_weight, ?_⟩
      simp [AUROC.updateState, ensureShapeN2, hsh]
  · intro hsh
    simp [AUROC.updateState, ensureShapeN2, hsh]

/-- Witness for C9 at a concrete malformed input (a rank-2 tensor with
three columns): the wrapper errors and accumulates nothing. -/
theorem auroc_shape_guard_witness :
    ((∃ st', AUROC.updateState (fun (st : List ℚ) _ yp _ => st ++ yp) [] [0] [[1, 2, 3]] none = .ok st')
        ↔ ([[(1 : ℚ), 2, 3]] : List (List ℚ)).all (fun row => row.length = 2) = true)
    ∧ (([[(1 : ℚ), 2, 3]] : List (List ℚ)).all (fun row => row.length = 2) = false
        → AUROC.updateState (fun (st : List ℚ) _ yp _ => st ++ yp) [] [0] [[1, 2, 3]] none
            = .error "shape mismatch") :=
  auroc_shape_guard (fun st _ yp _ => st ++ yp) [] [0] [[1, 2, 3]] none

end Ecoroar

namespace Ecoroar

/-! ### Result records and JSON loading
(src/export/faithfulness_plot.py lines 67-94,
 src/export/unmasked_performance_plot.py lines 58-71)

A result record is a JSON object with nested `args.*` run-configuration
fields and a `results` list of per-masking-ratio readings. Fields are
modelled as association lists from flattened column names to scalar
values (the scalar payload is kept as a string; its content is irrelevant
to the claims). -/

/-- A flattened JSON field: column name and scalar value. -/
abbrev Field := String × String

/-- A result record: flattened `args.*` fields plus the `results` list,
each element of which is itself a flat object of per-masking-ratio
readings. -/
structure ResultRecord where
  args : List Field
  results : List (List Field)
deriving DecidableEq, Repr

/-- A result file on disk: its name and the sequence of JSON documents its
text contains (for a newline-delimited file, one document per line). -/
structure JsonFile where
  fname : String
  docs : List ResultRecord
deriving DecidableEq, Repr

/-- Python `json.load(fp)`: parses exactly one JSON document from the whole
file. An empty file raises JSONDecodeError ("Expecting value"); a file with
any further document after the first raises JSONDecodeError ("Extra data").
This is the call on line 74 / 89 of faithfulness_plot.py and line 65 of
unmasked_performance_plot.py. -/
def jsonLoad (f : JsonFile) : Except String ResultRecord :=
  match f.docs with
  | [] => .error "Expecting value"
  | [d] => .ok d
  | _ :: _ :: _ => .error "Extra data"

/-- The loading loop of both export scripts: for each file in order, try
`json.load`; on success append the record to `results`, on JSONDecodeError
print the warning message naming the file and continue with the next file.
Returns the loaded records and the printed warnings, in order. -/
def loadResultFiles (files : List JsonFile) : List ResultRecord × List String :=
  match files with
  | [] => ([], [])
  | f :: rest =>
      let (recs, warns) := loadResultFiles rest
      match jsonLoad f with
      | .ok r => (r :: recs, warns)
      | .error _ => (recs, (f.fname ++ " has a format error") :: warns)

/-- The records a run of the loading loop ends up with: exactly the sole
documents of the single-document files, in file order. -/
theorem loadResultFiles_eq_filterMap (files : List JsonFile) :
    (loadResultFiles files).1
      = files.filterMap (fun f => match f.docs with | [d] => some d | _ => none) := by
  induction files with
  | nil => rfl
  | cons f rest ih =>
      cases hd : f.docs with
      | nil => simp [loadResultFiles, jsonLoad, hd, ih]
      | cons d ds =>
          cases ds with
          | nil => simp [loadResultFiles, jsonLoad, hd, ih]
          | cons d2 ds2 => simp [loadResultFiles, jsonLoad, hd, ih]

/-- The warnings a run of the loading loop prints: one per failing file,
naming that file, in file order. -/
theorem loadResultFiles_warnings (files : List JsonFile) :
    (loadResultFiles files).2
      = (files.filter (fun f => ¬ decide (f.docs.length = 1))).map
          (fun f => f.fname ++ " has a format error") := by
  induction files with
  | nil => rfl
  | cons f rest ih =>
      cases hd : f.docs with
      | nil => simp [loadResultFiles, jsonLoad, hd, ih, List.filter]
      | cons d ds =>
          cases ds with
          | nil => simp [loadResultFiles, jsonLoad, hd, ih, List.filter]
          | cons d2 ds2 => simp [loadResultFiles, jsonLoad, hd, ih, List.filter]

/-- Two distinct result records used as concrete inputs. -/
def sampleRecordA : ResultRecord :=
  { args := [("args.model", "roberta-sb"), ("args.dataset", "CoLA")]
    results := [[("masking_ratio", "0")], [("masking_ratio", "10")]] }

/-- A second concrete result record, distinct from `sampleRecordA`. -/
def sampleRecordB : ResultRecord :=
  { args := [("args.model", "roberta-sl"), ("args.dataset", "MRPC")]
    results := [[("masking_ratio", "0")]] }

end Ecoroar

namespace Ecoroar

/-- C3 counterexample: a result file whose text holds two JSON records on
separate lines (newline-delimited JSON). `json.load` raises on the extra
data, the file is skipped whole, and neither record is loaded — refuting
the claim that every record of a multi-record file reaches the dataframe. -/
theorem ndjson_file_records_not_loaded :
    sampleRecordA ∈ (JsonFile.mk "masking_42.json" [sampleRecordA, sampleRecordB]).docs
    ∧ sampleRecordA ∉ (loadResultFiles [JsonFile.mk "masking_42.json" [sampleRecordA, sampleRecordB]]).1 := by
  refine ⟨by simp [JsonFile.mk], ?_⟩
  simp [loadResultFiles, jsonLoad]

/-- C3 amended: the export scripts read each result file as a single JSON
document (`json.load` on the whole file). A record is loaded into the
dataframe exactly when it is the sole document of its file; a file holding
several newline-delimited records fails decoding with "Extra data" and is
skipped entirely. -/
theorem export_scripts_read_one_document_per_file :
    (∀ files : List JsonFile,
      (loadResultFiles files).1
        = files.filterMap (fun f => match f.docs with | [d] => some d | _ => none))
    ∧ (∀ (nm : String) (d d2 : ResultRecord) (ds : List ResultRecord),
        jsonLoad (JsonFile.mk nm (d :: d2 :: ds)) = .error "Extra data") := by
  refine ⟨loadResultFiles_eq_filterMap, ?_⟩
  intro nm d d2 ds
  rfl

/-- C4: for every result file whose contents fail to parse as JSON, the
loading loop catches the decode error, prints a warning naming that file,
skips the file, and still loads every record of all the other files: the
loaded records are the same as if the bad file were absent. -/
theorem bad_json_file_skipped_with_warning
    (pre post : List JsonFile) (f : JsonFile) (e : String)
    (he : jsonLoad f = .error e) :
    (f.fname ++ " has a format error") ∈ (loadResultFiles (pre ++ f :: post)).2
    ∧ (loadResultFiles (pre ++ f :: post)).1 = (loadResultFiles (pre ++ post)).1 := by
  have hnotone : (match f.docs with | [d] => some d | _ => none) = (none : Option ResultRecord) := by
    cases hd : f.docs with
    | nil => rfl
    | cons d ds =>
        cases ds with
        | nil => simp [jsonLoad, hd] at he
        | cons d2 ds2 => rfl
  constructor
  · rw [loadResultFiles_warnings]
    have hfmem : f ∈ (pre ++ f :: post).filter (fun g => ¬ decide (g.docs.length = 1)) := by
      rw [List.mem_filter]
      refine ⟨by simp, ?_⟩
      cases hd : f.docs with
      | nil => simp
      | cons d ds =>
          cases ds with
          | nil => simp [jsonLoad, hd] at he
          | cons d2 ds2 => simp [hd]
    exact List.mem_map_of_mem (fun g => g.fname ++ " has a format error") hfmem
  · rw [loadResultFiles_eq_filterMap, loadResultFiles_eq_filterMap]
    simp [List.filterMap_append, List.filterMap_cons, hnotone]

/-- Witness for C4: a malformed file between two well-formed ones is
warned about and skipped while both neighbours load. -/
theorem bad_json_file_skipped_with_warning_witness :
    jsonLoad (JsonFile.mk "masking_bad.json" []) = .error "Expecting value"
    ∧ (("masking_bad.json" ++ " has a format error")
        ∈ (loadResultFiles
            [JsonFile.mk "masking_1.json" [sampleRecordA],
             JsonFile.mk "masking_bad.json" [],
             JsonFile.mk "masking_2.json" [sampleRecordB]]).2
      ∧ (loadResultFiles
            [JsonFile.mk "masking_1.json" [sampleRecordA],
             JsonFile.mk "masking_bad.json" [],
             JsonFile.mk "masking_2.json" [sampleRecordB]]).1
          = (loadResultFiles
              [JsonFile.mk "masking_1.json" [sampleRecordA],
               JsonFile.mk "masking_2.json" [sampleRecordB]]).1) := by
  refine ⟨rfl, ?_⟩
  exact bad_json_file_skipped_with_warning
    [JsonFile.mk "masking_1.json" [sampleRecordA]]
    [JsonFile.mk "masking_2.json" [sampleRecordB]]
    (JsonFile.mk "masking_bad.json" []) "Expecting value" rfl

end Ecoroar

namespace Ecoroar

/-! ### Normalize and explode
(`pd.json_normalize(results).explode('results', ignore_index=True)` then
`pd.json_normalize(df.pop('results')).add_prefix('results.')` and
`pd.concat([df, results], axis=1)`; faithfulness_plot.py lines 78-80 and
92-94, unmasked_performance_plot.py lines 69-71.) -/

/-- pandas `explode` on the `results` column: every list element becomes a
row of its own; a row holding an empty list is kept as a single row whose
exploded entry is NaN (modelled as `none`), per the documented pandas
behaviour. -/
def explodeResults (r : ResultRecord) : List (Option (List Field)) :=
  match r.results with
  | [] => [none]
  | rs => rs.map some

/-- `pd.json_normalize(...).add_prefix('results.')` on one exploded entry:
every per-masking-ratio field's column name gains the leading "results.".
-/
def resultsColumns (fs : List Field) : List Field :=
  fs.map (fun kv => ("results." ++ kv.1, kv.2))

/-- One record's rows after normalize + explode + rename + concat: each row
carries the record's flattened `args.*` columns followed by the exploded
entry's `results.*` columns (a NaN entry contributes no columns). -/
def normalizeAndExplode (r : ResultRecord) : List (List Field) :=
  (explodeResults r).map
    (fun o => r.args ++ (match o with | none => [] | some fs => resultsColumns fs))

end Ecoroar

namespace Ecoroar

/-- C2 counterexample: a record whose `results` list is empty. The claim
demands zero rows (one per element), but pandas `explode` keeps one NaN
row for an empty list, so normalize + explode yields one row. -/
theorem explode_empty_results_yields_extra_row :
    (normalizeAndExplode (ResultRecord.mk [("args.model", "roberta-sb")] [])).length = 1
    ∧ (ResultRecord.mk [("args.model", "roberta-sb")] []).results.length = 0 :=
  ⟨rfl, rfl⟩

/-- C2 amended: for every loaded result record whose `results` list is
nonempty, normalizing and exploding produces exactly one row per
masking-ratio element, in order, each row carrying the record's `args.*`
fields and that element's fields with their names prefixed by "results.".
(For an empty `results` list pandas keeps a single all-NaN row instead of
zero rows.) -/
theorem explode_one_row_per_masking_ratio
    (r : ResultRecord) (h : r.results ≠ []) :
    normalizeAndExplode r = r.results.map (fun fs => r.args ++ resultsColumns fs)
    ∧ (normalizeAndExplode r).length = r.results.length := by
  have hexp : explodeResults r = r.results.map some := by
    unfold explodeResults
    cases hres : r.results with
    | nil => exact absurd hres h
    | cons x xs => rfl
  constructor
  · rw [normalizeAndExplode, hexp, List.map_map]
    rfl
  · rw [normalizeAndExplode, hexp]
    simp

/-- Witness for C2 at a concrete two-element record. -/
theorem explode_one_row_per_masking_ratio_witness :
    sampleRecordA.results ≠ []
    ∧ (normalizeAndExplode sampleRecordA
        = sampleRecordA.results.map (fun fs => sampleRecordA.args ++ resultsColumns fs)
      ∧ (normalizeAndExplode sampleRecordA).length = sampleRecordA.results.length) :=
  ⟨by simp [sampleRecordA], explode_one_row_per_masking_ratio sampleRecordA (by simp [sampleRecordA])⟩

end Ecoroar

namespace Ecoroar

/-! ### CLI argument specifications
(faithfulness_plot.py lines 22-41, unmasked_performance_plot.py lines
24-37.) An argparse argument is modelled by its flag, its `choices` list
(if any) and its string `default` (if any). `--persistent-dir`'s default
is the script-relative path, not a string constant, so it is modelled with
no string default; neither claim touches it. -/

/-- One argparse `add_argument` declaration. -/
structure ArgSpec where
  flag : String
  choices : Option (List String)
  dflt : Option String
deriving DecidableEq, Repr

/-- The arguments declared by the faithfulness_plot.py parser, in source
order. -/
def faithfulness_plot_args : List ArgSpec :=
  [ ⟨"--persistent-dir", none, none⟩,
    ⟨"--stage", some ["preprocess", "plot", "both"], some "both"⟩,
    ⟨"--performance-metric", some ["primary", "loss", "accuracy"], some "primary"⟩ ]

/-- The arguments declared by the unmasked_performance_plot.py parser, in
source order. -/
def unmasked_performance_plot_args : List ArgSpec :=
  [ ⟨"--persistent-dir", none, none⟩,
    ⟨"--stage", some ["preprocess", "plot", "both"], some "both"⟩ ]

/-- argparse choice validation: a supplied value for a declared flag is
accepted when the flag has no `choices` restriction or the value is one of
the choices; otherwise parsing rejects it with an error. -/
def acceptsValue (a : ArgSpec) (v : String) : Bool :=
  match a.choices with
  | none => true
  | some cs => cs.contains v

end Ecoroar

namespace Ecoroar

/-- C5 counterexample: the unmasked-performance export script's parser
declares no `--performance-metric` argument at all, refuting the claim
that every export script accepts all three flags. -/
theorem unmasked_script_lacks_performance_metric_flag :
    unmasked_performance_plot_args.all (fun a => !(a.flag == "--performance-metric")) = true := by
  decide

/-- C5 amended: both export scripts accept `--persistent-dir` (a path) and
`--stage` with choices exactly {preprocess, plot, both} and default both;
the faithfulness script additionally accepts `--performance-metric` with
choices exactly {primary, loss, accuracy} and default primary, while the
unmasked-performance script has no such flag; for either choice flag,
argument parsing accepts a value exactly when it is one of the declared
choices. -/
theorem export_cli_flags :
    ((⟨"--persistent-dir", none, none⟩ : ArgSpec) ∈ faithfulness_plot_args
      ∧ (⟨"--persistent-dir", none, none⟩ : ArgSpec) ∈ unmasked_performance_plot_args)
    ∧ ((⟨"--stage", some ["preprocess", "plot", "both"], some "both"⟩ : ArgSpec) ∈ faithfulness_plot_args
      ∧ (⟨"--stage", some ["preprocess", "plot", "both"], some "both"⟩ : ArgSpec) ∈ unmasked_performance_plot_args)
    ∧ ((⟨"--performance-metric", some ["primary", "loss", "accuracy"], some "primary"⟩ : ArgSpec)
          ∈ faithfulness_plot_args
      ∧ unmasked_performance_plot_args.all (fun a => !(a.flag == "--performance-metric")) = true)
    ∧ (∀ v : String,
        acceptsValue ⟨"--stage", some ["preprocess", "plot", "both"], some "both"⟩ v = true
          ↔ (v = "preprocess" ∨ v = "plot" ∨ v = "both"))
    ∧ (∀ v : String,
        acceptsValue ⟨"--performance-metric", some ["primary", "loss", "accuracy"], some "primary"⟩ v = true
          ↔ (v = "primary" ∨ v = "loss" ∨ v = "accuracy")) := by
  refine ⟨⟨by decide, by decide⟩, ⟨by decide, by decide⟩, ⟨by decide, by decide⟩, ?_, ?_⟩
  · intro v
    simp [acceptsValue]
  · intro v
    simp [acceptsValue]

end Ecoroar

namespace Ecoroar

/-! ### Plot-stage skip logic
(faithfulness_plot.py lines 118-160, unmasked_performance_plot.py lines
89-128.) The plot stage loops over the two model categories, queries the
dataframe for that category's rows, and on an empty result prints
'Skipping model category "...", no observations.' and `continue`s; only a
nonempty subset reaches the confidence-interval computation and the plot
rendering/saving. Observable behaviour per category is modelled as an
event. -/

/-- A dataframe row, reduced to the columns the plot-stage queries read. -/
structure DfRow where
  model_category : String
  results_masking_ratio : ℚ
deriving DecidableEq, Repr

/-- The two model categories both scripts loop over. -/
def modelCategories : List String := ["masking-ratio", "size"]

/-- What the plot stage does per model category. -/
inductive PlotEvent where
  | skipMessage (category : String)
  | rendered (category : String)
deriving DecidableEq, Repr

/-- The per-category loop shared by both scripts: query the dataframe with
the script's predicate; an empty subset yields the printed skip message,
a nonempty one computes bootstrap confidence intervals and renders/saves
the plot. -/
def plotStageEvents (query : String → DfRow → Bool) (df : List DfRow) : List PlotEvent :=
  modelCategories.map (fun c =>
    if (df.filter (query c)).length = 0 then .skipMessage c else .rendered c)

/-- faithfulness_plot.py: the query is `model_category == @model_category`.
-/
def faithfulnessPlotStage (df : List DfRow) : List PlotEvent :=
  plotStageEvents (fun c r => r.model_category == c) df

/-- unmasked_performance_plot.py: the query is
`results.masking_ratio == 0 & model_category == @model_category`. -/
def unmaskedPlotStage (df : List DfRow) : List PlotEvent :=
  plotStageEvents (fun c r => (r.results_masking_ratio == 0) && (r.model_category == c)) df

/-- An empty query subset for a category produces its skip message, never
a render, and the loop still visits every category. -/
theorem plotStageEvents_skip (query : String → DfRow → Bool) (df : List DfRow)
    (c : String) (hc : c ∈ modelCategories)
    (hempty : (df.filter (query c)).length = 0) :
    PlotEvent.skipMessage c ∈ plotStageEvents query df
    ∧ PlotEvent.rendered c ∉ plotStageEvents query df
    ∧ (plotStageEvents query df).length = modelCategories.length := by
  refine ⟨?_, ?_, by simp [plotStageEvents]⟩
  · rw [plotStageEvents, List.mem_map]
    exact ⟨c, hc, by simp [hempty]⟩
  · rw [plotStageEvents, List.mem_map]
    rintro ⟨c', hc', heq⟩
    by_cases hEmpty2 : (df.filter (query c')).length = 0
    · rw [if_pos hEmpty2] at heq
      exact PlotEvent.noConfusion heq
    · rw [if_neg hEmpty2] at heq
      cases heq
      exact hEmpty2 hempty

end Ecoroar

namespace Ecoroar

/-- C6: in the plot stage of either export script, every model category
whose queried dataframe subset has zero rows gets the printed skip message
naming it, no confidence-interval computation and no rendered plot, and
the loop proceeds: every category of the list is still processed. -/
theorem empty_model_category_skipped (df : List DfRow) (c : String)
    (hc : c ∈ modelCategories) :
    ((df.filter (fun r => r.model_category == c)).length = 0
      → PlotEvent.skipMessage c ∈ faithfulnessPlotStage df
        ∧ PlotEvent.rendered c ∉ faithfulnessPlotStage df
        ∧ (faithfulnessPlotStage df).length = modelCategories.length)
    ∧ ((df.filter (fun r => (r.results_masking_ratio == 0) && (r.model_category == c))).length = 0
      → PlotEvent.skipMessage c ∈ unmaskedPlotStage df
        ∧ PlotEvent.rendered c ∉ unmaskedPlotStage df
        ∧ (unmaskedPlotStage df).length = modelCategories.length) :=
  ⟨fun hempty => plotStageEvents_skip _ df c hc hempty,
   fun hempty => plotStageEvents_skip _ df c hc hempty⟩

/-- Witness for C6: a dataframe holding only a "size" row leaves the
"masking-ratio" category empty in both scripts. -/
theorem empty_model_category_skipped_witness :
    "masking-ratio" ∈ modelCategories
    ∧ (((([⟨"size", 0⟩] : List DfRow).filter (fun r => r.model_category == "masking-ratio")).length = 0
      → PlotEvent.skipMessage "masking-ratio" ∈ faithfulnessPlotStage [⟨"size", 0⟩]
        ∧ PlotEvent.rendered "masking-ratio" ∉ faithfulnessPlotStage [⟨"size", 0⟩]
        ∧ (faithfulnessPlotStage [⟨"size", 0⟩]).length = modelCategories.length)
    ∧ ((([⟨"size", 0⟩] : List DfRow).filter
          (fun r => (r.results_masking_ratio == 0) && (r.model_category == "masking-ratio"))).length = 0
      → PlotEvent.skipMessage "masking-ratio" ∈ unmaskedPlotStage [⟨"size", 0⟩]
        ∧ PlotEvent.rendered "masking-ratio" ∉ unmaskedPlotStage [⟨"size", 0⟩]
        ∧ (unmaskedPlotStage [⟨"size", 0⟩]).length = modelCategories.length)) :=
  ⟨by decide, empty_model_category_skipped [⟨"size", 0⟩] "masking-ratio" (by decide)⟩

end Ecoroar

namespace Ecoroar

/-! ### Dataset split descriptors
(src/ecoroar/dataset/cola.py lines 6-13, src/ecoroar/dataset/mrpc.py
lines 7-14.) Each dataset adapter fixes its name, metric list,
early-stopping metric and three split-specification strings handed to
the tfds builder. -/

/-- The split/metric metadata an AbstractDataset subclass fixes. -/
structure DatasetDescriptor where
  name : String
  metrics : List String
  early_stopping_metric : String
  split_train : String
  split_valid : String
  split_test : String
deriving DecidableEq, Repr

/-- CoLADataset from src/ecoroar/dataset/cola.py. -/
def CoLADataset : DatasetDescriptor :=
  { name := "CoLA"
    metrics := ["accuracy", "matthew"]
    early_stopping_metric := "matthew"
    split_train := "train[:80%]"
    split_valid := "train[80%:]"
    split_test := "validation" }

/-- MRPCDataset from src/ecoroar/dataset/mrpc.py. -/
def MRPCDataset : DatasetDescriptor :=
  { name := "MRPC"
    metrics := ["accuracy", "macro_f1"]
    early_stopping_metric := "macro_f1"
    split_train := "train[:80%]"
    split_valid := "train[80%:]"
    split_test := "validation" }

/-- The tfds percent boundary for `p%` of `n` examples under the default
closest rounding: round(n * p / 100) to the nearest integer. -/
def percentBoundary (p n : ℕ) : ℕ := (n * p + 50) / 100

/-- The raw-train example indices selected by the two percent-slice
expressions the adapters use, for a raw train split of `n` examples:
`train[:80%]` takes the indices below the 80% boundary, `train[80%:]`
those at or above it. Other strings name no slice of the train split. -/
def splitIndices : String → ℕ → Option (Finset ℕ)
  | "train[:80%]", n => some ((Finset.range n).filter (fun i => i < percentBoundary 80 n))
  | "train[80%:]", n => some ((Finset.range n).filter (fun i => percentBoundary 80 n ≤ i))
  | _, _ => none

end Ecoroar

namespace Ecoroar

/-- C7: both dataset adapters fix exactly the split strings
'train[:80%]' / 'train[80%:]' / 'validation', and for every raw train
split size the first two slices are disjoint and together cover the raw
train split: they partition it. -/
theorem dataset_splits_partition_train :
    (CoLADataset.split_train = "train[:80%]"
      ∧ CoLADataset.split_valid = "train[80%:]"
      ∧ CoLADataset.split_test = "validation")
    ∧ (MRPCDataset.split_train = "train[:80%]"
      ∧ MRPCDataset.split_valid = "train[80%:]"
      ∧ MRPCDataset.split_test = "validation")
    ∧ (∀ n : ℕ, ∀ A B : Finset ℕ,
        splitIndices CoLADataset.split_train n = some A
        → splitIndices CoLADataset.split_valid n = some B
        → Disjoint A B ∧ A ∪ B = Finset.range n) := by
  refine ⟨⟨rfl, rfl, rfl⟩, ⟨rfl, rfl, rfl⟩, ?_⟩
  intro n A B hA hB
  have hA2 : A = (Finset.range n).filter (fun i => i < percentBoundary 80 n) := by
    simpa [splitIndices, CoLADataset] using hA.symm
  have hB2 : B = (Finset.range n).filter (fun i => percentBoundary 80 n ≤ i) := by
    simpa [splitIndices, CoLADataset] using hB.symm
  subst hA2 hB2
  constructor
  · rw [Finset.disjoint_left]
    intro i hi hib
    simp only [Finset.mem_filter, Finset.mem_range] at hi hib
    omega
  · ext i
    simp only [Finset.mem_union, Finset.mem_filter, Finset.mem_range]
    omega

/-- Witness for C7: the partition at a raw train split of 527 examples. -/
theorem dataset_splits_partition_train_witness :
    splitIndices CoLADataset.split_train 527
        = some ((Finset.range 527).filter (fun i => i < percentBoundary 80 527))
    ∧ splitIndices CoLADataset.split_valid 527
        = some ((Finset.range 527).filter (fun i => percentBoundary 80 527 ≤ i))
    ∧ (Disjoint ((Finset.range 527).filter (fun i => i < percentBoundary 80 527))
          ((Finset.range 527).filter (fun i => percentBoundary 80 527 ≤ i))
      ∧ ((Finset.range 527).filter (fun i => i < percentBoundary 80 527))
          ∪ ((Finset.range 527).filter (fun i => percentBoundary 80 527 ≤ i))
          = Finset.range 527) :=
  ⟨rfl, rfl,
    dataset_splits_partition_train.2.2 527
      ((Finset.range 527).filter (fun i => i < percentBoundary 80 527))
      ((Finset.range 527).filter (fun i => percentBoundary 80 527 ≤ i)) rfl rfl⟩

end Ecoroar

namespace Ecoroar

/-! ### src/ecoroar/model/simple_test_model.py

The toy model embeds token ids with a constant 5x2 embedding matrix,
squares the embeddings elementwise, sums them over the sequence axis
(`tf.math.reduce_sum(z, axis=1)`) and applies a bias-free dense layer
with a constant 2x3 kernel. Weights are exact small integers, so float32
arithmetic on them is exact and the tensors are modelled over ℚ. -/

/-- `_default_embedding` from simple_test_model.py (rows: BOS, EOS, PAD,
TOKEN, MASK). -/
def _default_embedding : List (List ℚ) :=
  [[0, 1], [0, 1], [0, 0], [1, 0], [0, 1]]

/-- `_defalt_kernel` from simple_test_model.py (the source's spelling). -/
def _defalt_kernel : List (List ℚ) :=
  [[1, 0, 1], [0, 1, 1]]

/-- A tokenized batch: `input_ids` and `attention_mask`, one row per
sequence. -/
structure TokenizedDict where
  input_ids : List (List ℕ)
  attention_mask : List (List ℕ)
deriving DecidableEq, Repr

/-- An embedded batch: `inputs_embeds` (one embedding vector per token)
and `attention_mask`. -/
structure EmbeddingDict where
  inputs_embeds : List (List (List ℚ))
  attention_mask : List (List ℕ)
deriving DecidableEq, Repr

/-- The argument of `SimpleTestModel.call`: either a TokenizedDict or an
EmbeddingDict (the code branches on `'inputs_embeds' not in x`). -/
inductive ModelInput where
  | tokenized (x : TokenizedDict)
  | embeds (x : EmbeddingDict)
deriving DecidableEq, Repr

/-- The model's constant weights: the embedding matrix and the dense
kernel handed to the constant initializers. -/
structure SimpleTestModel where
  embedding : List (List ℚ)
  kernel : List (List ℚ)
deriving DecidableEq, Repr

/-- The model built by `SimpleTestModel()` with the default initializers.
-/
def SimpleTestModel.default : SimpleTestModel :=
  { embedding := _default_embedding, kernel := _defalt_kernel }

/-- `SimpleTestModel.inputs_embeds`: look every token id up in the
embedding matrix and pass the attention mask through. -/
def SimpleTestModel.inputsEmbeds (m : SimpleTestModel) (x : TokenizedDict) : EmbeddingDict :=
  { inputs_embeds := x.input_ids.map (fun seq => seq.map (fun t => m.embedding.getD t []))
    attention_mask := x.attention_mask }

/-- Elementwise vector addition (same-length operands). -/
def vecAdd (a b : List ℚ) : List ℚ := List.zipWith (· + ·) a b

/-- `tf.math.reduce_sum(z, axis=1)` for one batch element: the elementwise
sum of its per-token vectors. -/
def sumVecs : List (List ℚ) → List ℚ
  | [] => []
  | [v] => v
  | v :: w :: rest => vecAdd v (sumVecs (w :: rest))

/-- The bias-free dense layer on one feature vector: output j is the dot
product of the input with kernel column j; the number of units is the
kernel's row length. -/
def denseNoBias (kernel : List (List ℚ)) (v : List ℚ) : List ℚ :=
  (List.range (kernel.headD []).length).map
    (fun j => ((v.zip kernel).map (fun p => p.1 * p.2.getD j 0)).sum)

/-- `SimpleTestModel.call`: embed unless embeddings are given, square
elementwise, reduce-sum over the sequence axis, apply the dense layer.
Returns the `logits` field of the `SimpleOutput`. -/
def SimpleTestModel.call (m : SimpleTestModel) (inputs : ModelInput) : List (List ℚ) :=
  let x : EmbeddingDict :=
    match inputs with
    | .tokenized t => m.inputsEmbeds t
    | .embeds e => e
  x.inputs_embeds.map
    (fun seq => denseNoBias m.kernel (sumVecs (seq.map (fun v => v.map (fun a => a * a)))))

/-- Claim-side formula for C8: logit j of a sequence is the matrix product
of the positionwise sum of the squared embedding rows with the fixed 2x3
kernel. -/
def specLogit (seq : List ℕ) (j : ℕ) : ℚ :=
  ∑ k ∈ Finset.range 2,
    ((seq.map (fun t => ((_default_embedding.getD t []).getD k 0) ^ 2)).sum)
      * ((_defalt_kernel.getD k []).getD j 0)

end Ecoroar

namespace Ecoroar

/-- The sequence-axis sum of a nonempty list of 2-vectors is the 2-vector
of coordinatewise sums. -/
theorem sumVecs_pair (vs : List (List ℚ)) (h2 : ∀ v ∈ vs, v.length = 2) (hne : vs ≠ []) :
    sumVecs vs = [(vs.map (fun v => v.getD 0 0)).sum, (vs.map (fun v => v.getD 1 0)).sum] := by
  induction vs with
  | nil => exact absurd rfl hne
  | cons v rest ih =>
      obtain ⟨a, b, rfl⟩ := List.length_eq_two.mp (h2 v (by simp))
      cases rest with
      | nil => simp [sumVecs]
      | cons w rest2 =>
          have hrest := ih (fun u hu => h2 u (by simp [hu])) (by simp)
          simp only [sumVecs, hrest, vecAdd, List.zipWith, List.map_cons, List.sum_cons]
          simp

/-- The dense layer with the default 2x3 kernel on a 2-vector. -/
theorem denseNoBias_defalt_kernel (s0 s1 : ℚ) :
    denseNoBias _defalt_kernel [s0, s1] = [s0, s1, s0 + s1] := by
  simp [denseNoBias, _defalt_kernel, List.range_succ]

/-- One sequence of valid token ids through square, reduce-sum and dense
equals the claim-side formula. -/
theorem call_row_eq_specLogits (seq : List ℕ) (h : ∀ t ∈ seq, t < 5) :
    denseNoBias _defalt_kernel
        (sumVecs (seq.map (fun t => (_default_embedding.getD t []).map (fun a => a * a))))
      = (List.range 3).map (fun j => specLogit seq j) := by
  have hrowlen : ∀ t, t < 5 → ((_default_embedding.getD t []).map (fun a => a * a)).length = 2 := by
    decide
  have hpt : ∀ k, k < 2 → ∀ t, t < 5 →
      ((_default_embedding.getD t []).map (fun a => a * a)).getD k 0
        = ((_default_embedding.getD t []).getD k 0) ^ 2 := by
    intro k hk t ht
    interval_cases k <;> interval_cases t <;> norm_num [_default_embedding]
  cases seq with
  | nil =>
      simp [denseNoBias, sumVecs, specLogit, _defalt_kernel, List.range_succ,
        Finset.sum_range_succ]
  | cons a rest =>
      have h2 : ∀ v ∈ (a :: rest).map (fun t => (_default_embedding.getD t []).map (fun a => a * a)),
          v.length = 2 := by
        intro v hv
        obtain ⟨t, ht, rfl⟩ := List.mem_map.mp hv
        exact hrowlen t (h t ht)
      rw [sumVecs_pair _ h2 (by simp), List.map_map, List.map_map]
      have hS : ∀ k, k < 2 →
          ((a :: rest).map ((fun v => v.getD k 0)
              ∘ (fun t => (_default_embedding.getD t []).map (fun a => a * a)))).sum
            = ((a :: rest).map (fun t => ((_default_embedding.getD t []).getD k 0) ^ 2)).sum := by
        intro k hk
        refine congrArg List.sum (List.map_congr_left ?_)
        intro t ht
        exact hpt k hk t (h t ht)
      rw [hS 0 (by omega), hS 1 (by omega), denseNoBias_defalt_kernel]
      have hspec : ∀ j, specLogit (a :: rest) j
          = ((a :: rest).map (fun t => ((_default_embedding.getD t []).getD 0 0) ^ 2)).sum
              * ((_defalt_kernel.getD 0 []).getD j 0)
            + ((a :: rest).map (fun t => ((_default_embedding.getD t []).getD 1 0) ^ 2)).sum
              * ((_defalt_kernel.getD 1 []).getD j 0) := by
        intro j
        simp [specLogit, Finset.sum_range_succ]
      simp [List.range_succ, hspec, _defalt_kernel]

end Ecoroar

namespace Ecoroar

/-- C8: with the default constant initializers, `SimpleTestModel.call` on
a tokenized batch of sequences of valid token ids returns one 3-vector of
logits per sequence, and logit j of a sequence equals the positionwise sum
of the elementwise-squared embedding rows of its tokens multiplied by the
fixed 2x3 kernel (no bias). -/
theorem simple_test_model_fixed_network (ids masks : List (List ℕ))
    (h : ∀ seq ∈ ids, ∀ t ∈ seq, t < 5) :
    SimpleTestModel.default.call (.tokenized ⟨ids, masks⟩)
        = ids.map (fun seq => (List.range 3).map (fun j => specLogit seq j))
    ∧ ∀ row ∈ SimpleTestModel.default.call (.tokenized ⟨ids, masks⟩), row.length = 3 := by
  have hmain : SimpleTestModel.default.call (.tokenized ⟨ids, masks⟩)
      = ids.map (fun seq => (List.range 3).map (fun j => specLogit seq j)) := by
    rw [SimpleTestModel.call]
    simp only [SimpleTestModel.inputsEmbeds, SimpleTestModel.default, List.map_map]
    refine List.map_congr_left ?_
    intro seq hseq
    rw [Function.comp_apply, List.map_map]
    exact call_row_eq_specLogits seq (h seq hseq)
  refine ⟨hmain, ?_⟩
  rw [hmain]
  intro row hrow
  obtain ⟨seq, _, rfl⟩ := List.mem_map.mp hrow
  simp

/-- Witness for C8 at a concrete batch: the pair sequence [BOS, TOKEN] and
the singleton sequence [MASK]. -/
theorem simple_test_model_fixed_network_witness :
    (∀ seq ∈ ([[0, 3], [4]] : List (List ℕ)), ∀ t ∈ seq, t < 5)
    ∧ (SimpleTestModel.default.call (.tokenized ⟨[[0, 3], [4]], [[1, 1], [1]]⟩)
          = ([[0, 3], [4]] : List (List ℕ)).map
              (fun seq => (List.range 3).map (fun j => specLogit seq j))
      ∧ ∀ row ∈ SimpleTestModel.default.call (.tokenized ⟨[[0, 3], [4]], [[1, 1], [1]]⟩),
          row.length = 3) :=
  ⟨by decide, simple_test_model_fixed_network [[0, 3], [4]] [[1, 1], [1]] (by decide)⟩

/-- C10: `SimpleTestModel.call` never reads the attention mask: on
tokenized inputs the logits depend only on `input_ids`, and on embedded
inputs only on `inputs_embeds`; two inputs differing solely in
`attention_mask` produce identical logits. -/
theorem simple_test_model_ignores_attention_mask (m : SimpleTestModel) :
    (∀ (ids : List (List ℕ)) (mask1 mask2 : List (List ℕ)),
        m.call (.tokenized ⟨ids, mask1⟩) = m.call (.tokenized ⟨ids, mask2⟩))
    ∧ (∀ (e : List (List (List ℚ))) (mask1 mask2 : List (List ℕ)),
        m.call (.embeds ⟨e, mask1⟩) = m.call (.embeds ⟨e, mask2⟩)) :=
  ⟨fun _ _ _ => rfl, fun _ _ _ => rfl⟩

end Ecoroar
